import Mathlib

/-!
Shallow embedding of `src/server.py` (a Socket.IO bingo game server).

Python dicts that are iterated in insertion order (`rooms`, each room's
`players`, `sid_to_user`) are modelled as association lists with the exact
update semantics of a Python dict: assignment to an existing key replaces the
value in place (keeping its position), assignment to a fresh key appends, and
`del` removes the entry.  Python `set` objects (`start_votes`) are modelled as
duplicate-free lists (only their size is ever observed).  Machine integers are
`Int`/`Nat`.  A handler that would raise an uncaught Python exception (KeyError,
IndexError, ZeroDivisionError) is modelled by `ok := false` in its result, with
`state` reflecting exactly the mutations performed before the raise.  Socket.IO
`emit` calls are modelled as an explicit list of outbound events.
-/

namespace BingoServer

/-- Python `d.get(k)` / `d[k]` lookup on an insertion-ordered dict. -/
def lookupKey (k : String) : List (String × α) → Option α
  | [] => none
  | e :: rest => if e.1 = k then some e.2 else lookupKey k rest

/-- Python `k in d`. -/
def hasKey (k : String) (l : List (String × α)) : Bool :=
  (lookupKey k l).isSome

/-- Python `d[k] = v`: replace in place if the key is present, else append. -/
def insertPy (k : String) (v : α) : List (String × α) → List (String × α)
  | [] => [(k, v)]
  | e :: rest => if e.1 = k then (k, v) :: rest else e :: insertPy k v rest

/-- Python `del d[k]`: remove the (unique) entry with key `k`. -/
def eraseKey (k : String) : List (String × α) → List (String × α)
  | [] => []
  | e :: rest => if e.1 = k then rest else e :: eraseKey k rest

/-- Python list indexing `l[i]`, including negative indices;
`none` models an `IndexError`. -/
def pyGet (l : List α) (i : Int) : Option α :=
  if 0 ≤ i then l.get? i.toNat
  else if 0 ≤ i + l.length then l.get? (i + l.length).toNat
  else none

/-- One player's entry in `rooms[room]['players']` (server.py lines 41-46). -/
structure Player where
  board : List Int
  marked : List Bool
  bingo : Bool
  submitted : Bool
deriving DecidableEq

/-- A fresh player as created on join (server.py lines 41-46 / 60-65). -/
def blankPlayer : Player :=
  { board := [], marked := [], bingo := false, submitted := false }

/-- One room's state, `rooms[room]` (server.py lines 30-40).  The `timer`
field (a thread handle) is outside the state machine and not modelled. -/
structure Room where
  players : List (String × Player)
  numbers_called : List Int
  chat : List (String × String)
  game_started : Bool
  turn_order : List String
  current_turn : Int
  start_votes : List String
  waiting_for_players : Bool
deriving DecidableEq

/-- The fresh room dict of server.py lines 30-40. -/
def freshRoom : Room :=
  { players := [], numbers_called := [], chat := [], game_started := false,
    turn_order := [], current_turn := 0, start_votes := [],
    waiting_for_players := true }

/-- One entry of `sid_to_user` (server.py line 28). -/
structure UserRef where
  username : String
  room : String
deriving DecidableEq

/-- The two module-level dicts `rooms` and `sid_to_user` (server.py lines 15-16). -/
structure ServerState where
  rooms : List (String × Room)
  sid_to_user : List (String × UserRef)
deriving DecidableEq

/-- Server start: both dicts empty. -/
def initialState : ServerState := { rooms := [], sid_to_user := [] }

/-- Outbound Socket.IO events emitted by the handlers. -/
inductive Emit where
  | error (message : String)
  | room_created (room : String)
  | player_joined (username : String)
  | update_player_list (players : List String)
  | board_submitted (username : String)
  | update_submission_status (status : List (String × Bool))
  | waiting_for_players (message : String)
  | game_started (turn_order : List String)
  | your_turn (username : String)
  | turn_skipped (username : String)
  | number_called (number : Int) (winner : Option String) (username : String)
      (numbers_called : List Int)
  | game_over (winner : String)
  | game_ended (message : String)
  | player_left (username : String)
  | new_message (username message : String)
  | restart_game
deriving DecidableEq

/-- Result of running one event handler: the final global state, the emitted
events in order, and whether the handler finished without raising. -/
structure HResult where
  state : ServerState
  emits : List Emit
  ok : Bool
deriving DecidableEq

/-- Write back `rooms[roomId] = r`. -/
def setRoom (roomId : String) (r : Room) (s : ServerState) : ServerState :=
  { s with rooms := insertPy roomId r s.rooms }

/-- `check_bingo`'s fixed list of 12 winning lines (server.py lines 252-265). -/
def bingoLines : List (List Nat) :=
  [[0, 1, 2, 3, 4], [5, 6, 7, 8, 9], [10, 11, 12, 13, 14], [15, 16, 17, 18, 19],
   [20, 21, 22, 23, 24], [0, 5, 10, 15, 20], [1, 6, 11, 16, 21], [2, 7, 12, 17, 22],
   [3, 8, 13, 18, 23], [4, 9, 14, 19, 24], [0, 6, 12, 18, 24], [4, 8, 12, 16, 20]]

/-- `check_bingo(marked)` (server.py lines 251-269): true iff some line is
fully marked. -/
def check_bingo (marked : List Bool) : Bool :=
  bingoLines.any (fun line => line.all (fun i => marked.getD i false))

/-- `on_create_room` (server.py lines 22-48).  `join_room`/`leave_room` are
transport-level and stateless here. -/
def on_create_room (sid room username : String) (s : ServerState) : HResult :=
  let s1 : ServerState :=
    { s with sid_to_user := insertPy sid ⟨username, room⟩ s.sid_to_user }
  let r0 := (lookupKey room s1.rooms).getD freshRoom
  let r1 := { r0 with players := insertPy username blankPlayer r0.players }
  { state := setRoom room r1 s1,
    emits := [.room_created room, .update_player_list (r1.players.map Prod.fst)],
    ok := true }

/-- `on_join_room` (server.py lines 50-67).  Note the session binding is
written before the room-existence check, exactly as in the source. -/
def on_join_room (sid room username : String) (s : ServerState) : HResult :=
  let s1 : ServerState :=
    { s with sid_to_user := insertPy sid ⟨username, room⟩ s.sid_to_user }
  match lookupKey room s1.rooms with
  | none => { state := s1, emits := [.error "房間不存在"], ok := true }
  | some r0 =>
      let r1 := { r0 with players := insertPy username blankPlayer r0.players }
      { state := setRoom room r1 s1,
        emits := [.player_joined username,
                  .update_player_list (r1.players.map Prod.fst)],
        ok := true }

/-- `on_disconnect` (server.py lines 69-96). -/
def on_disconnect (sid : String) (s : ServerState) : HResult :=
  match lookupKey sid s.sid_to_user with
  | none => { state := s, emits := [], ok := true }
  | some u =>
      let s1 : ServerState := { s with sid_to_user := eraseKey sid s.sid_to_user }
      match lookupKey u.room s1.rooms with
      | none => { state := s1, emits := [], ok := true }
      | some r =>
          if hasKey u.username r.players then
            let r1 := { r with players := eraseKey u.username r.players }
            if r1.players.length = 0 then
              { state := { s1 with rooms := eraseKey u.room s1.rooms },
                emits := [], ok := true }
            else
              let base := [Emit.update_player_list (r1.players.map Prod.fst)]
              if r1.game_started then
                let r2 :=
                  if u.username ∈ r1.turn_order then
                    let idx := r1.turn_order.indexOf u.username
                    { r1 with
                      turn_order := r1.turn_order.eraseIdx idx,
                      current_turn :=
                        if (idx : Int) ≤ r1.current_turn then r1.current_turn - 1
                        else r1.current_turn }
                  else r1
                if r2.turn_order.length < 2 then
                  { state := setRoom u.room { r2 with game_started := false } s1,
                    emits := base ++ [.game_ended "遊戲因玩家離開而結束"], ok := true }
                else
                  { state := setRoom u.room r2 s1,
                    emits := base ++ [.player_left u.username], ok := true }
              else
                { state := setRoom u.room r1 s1, emits := base, ok := true }
          else { state := s1, emits := [], ok := true }

/-- `on_submit_board` (server.py lines 102-117).  A missing room or player
entry is an uncaught KeyError (`ok := false`); no mutation precedes it. -/
def on_submit_board (sid : String) (board : List Int) (s : ServerState) : HResult :=
  match lookupKey sid s.sid_to_user with
  | none => { state := s, emits := [], ok := true }
  | some u =>
      match lookupKey u.room s.rooms with
      | none => { state := s, emits := [], ok := false }
      | some r =>
          match lookupKey u.username r.players with
          | none => { state := s, emits := [], ok := false }
          | some p =>
              let p1 : Player :=
                { p with
                  board := board
                  marked := List.replicate 25 false
                  submitted := true }
              let r1 := { r with players := insertPy u.username p1 r.players }
              { state := setRoom u.room r1 s,
                emits := [.board_submitted u.username,
                          .update_submission_status
                            (r1.players.map (fun e => (e.1, e.2.submitted)))],
                ok := true }

/-- `start_turn_timer` (server.py lines 145-155), fused with the write-back of
the room state that in Python happens by in-place mutation before the call.
Timer creation/cancellation is outside the state machine; the `your_turn`
lookup `turn_order[current_turn]` can raise IndexError after mutation. -/
def start_turn_timer (roomId : String) (r : Room) (s : ServerState)
    (acc : List Emit) : HResult :=
  let s2 := setRoom roomId r s
  match pyGet r.turn_order r.current_turn with
  | none => { state := s2, emits := acc, ok := false }
  | some cp => { state := s2, emits := acc ++ [.your_turn cp], ok := true }

/-- `advance_turn` (server.py lines 163-165).  `% 0` is a Python
ZeroDivisionError raised before the assignment to `current_turn`. -/
def advance_turn (roomId : String) (r : Room) (s : ServerState)
    (acc : List Emit) : HResult :=
  if r.turn_order.length = 0 then
    { state := setRoom roomId r s, emits := acc, ok := false }
  else
    start_turn_timer roomId
      { r with current_turn := (r.current_turn + 1) % (r.turn_order.length : Int) }
      s acc

/-- Python `set.add` on `start_votes`: only membership and size are observed,
so the set is kept as a duplicate-free list. -/
def addVote (v : String) (votes : List String) : List String :=
  if v ∈ votes then votes else votes ++ [v]

/-- `on_start_game` (server.py lines 119-143).  The in-place
`random.shuffle` is modelled by an explicit `shuffle` oracle supplied with
the event; the code relies on it producing a permutation of its input. -/
def on_start_game (sid : String) (shuffle : List String → List String)
    (s : ServerState) : HResult :=
  match lookupKey sid s.sid_to_user with
  | none => { state := s, emits := [], ok := true }
  | some u =>
      match lookupKey u.room s.rooms with
      | none => { state := s, emits := [], ok := false }
      | some r =>
          let r1 := { r with start_votes := addVote u.username r.start_votes }
          if 2 ≤ r1.players.length ∧ 2 ≤ r1.start_votes.length then
            if r1.players.all (fun e => e.2.submitted) then
              let r2 :=
                { r1 with
                  game_started := true
                  waiting_for_players := false
                  turn_order := shuffle (r1.players.map Prod.fst)
                  current_turn := 0 }
              start_turn_timer u.room r2 s [.game_started r2.turn_order]
            else
              { state := setRoom u.room r1 s,
                emits := [.waiting_for_players "等待其他玩家提交板"], ok := true }
          else
            { state := setRoom u.room r1 s,
              emits := [.waiting_for_players "需要至少兩名玩家開始遊戲"], ok := true }

/-- The per-player body of the marking loop in `on_number_selected`
(server.py lines 188-195), minus the `winner` assignment. -/
def updatePlayer (number : Int) (p : Player) : Player :=
  if number ∈ p.board then
    let marked := p.marked.set (p.board.indexOf number) true
    if check_bingo marked then { p with marked := marked, bingo := true }
    else { p with marked := marked }
  else p

/-- Whether the loop body sets `winner` to this player: the called number is
on their board and marking it completes a line. -/
def playerWins (number : Int) (p : Player) : Bool :=
  if number ∈ p.board then
    check_bingo (p.marked.set (p.board.indexOf number) true)
  else false

/-- The `winner` variable after the loop of server.py lines 187-195: it is
overwritten by every player that completes a line, in roster order. -/
def computeWinner (number : Int) (ps : List (String × Player)) : Option String :=
  ps.foldl (fun w e => if playerWins number e.2 then some e.1 else w) none

/-- `on_number_selected` (server.py lines 167-208). -/
def on_number_selected (sid : String) (number : Int) (s : ServerState) : HResult :=
  match lookupKey sid s.sid_to_user with
  | none => { state := s, emits := [], ok := true }
  | some u =>
      match lookupKey u.room s.rooms with
      | none => { state := s, emits := [], ok := false }
      | some r =>
          match pyGet r.turn_order r.current_turn with
          | none => { state := s, emits := [], ok := false }
          | some current_player =>
              if u.username ≠ current_player then
                { state := s, emits := [.error "不是你的回合"], ok := true }
              else if number ∈ r.numbers_called then
                { state := s, emits := [.error "該數字已被選過"], ok := true }
              else
                let winner := computeWinner number r.players
                let r1 :=
                  { r with
                    numbers_called := r.numbers_called ++ [number],
                    players := r.players.map (fun e => (e.1, updatePlayer number e.2)) }
                let acc :=
                  [Emit.number_called number winner u.username r1.numbers_called]
                match winner with
                | some w =>
                    { state := setRoom u.room { r1 with game_started := false } s,
                      emits := acc ++ [.game_over w], ok := true }
                | none => advance_turn u.room r1 s acc

/-- `on_send_message` (server.py lines 210-224): stateless relay. -/
def on_send_message (sid message : String) (s : ServerState) : HResult :=
  match lookupKey sid s.sid_to_user with
  | none => { state := s, emits := [.new_message "匿名流言" message], ok := true }
  | some u => { state := s, emits := [.new_message u.username message], ok := true }

/-- `on_restart_game` (server.py lines 226-249). -/
def on_restart_game (sid : String) (s : ServerState) : HResult :=
  match lookupKey sid s.sid_to_user with
  | none => { state := s, emits := [], ok := true }
  | some u =>
      match lookupKey u.room s.rooms with
      | none => { state := s, emits := [.error "房間不存在"], ok := true }
      | some r =>
          let r1 : Room :=
            { r with
              game_started := false
              numbers_called := []
              turn_order := []
              current_turn := 0
              start_votes := []
              waiting_for_players := true
              players := r.players.map (fun e => (e.1, blankPlayer)) }
          { state := setRoom u.room r1 s, emits := [.restart_game], ok := true }

/-- One inbound Socket.IO event with its payload. -/
inductive Event where
  | create_room (sid room username : String)
  | join_room (sid room username : String)
  | disconnect (sid : String)
  | submit_board (sid : String) (board : List Int)
  | start_game (sid : String) (shuffle : List String → List String)
  | number_selected (sid : String) (number : Int)
  | send_message (sid message : String)
  | restart_game (sid : String)

/-- Dispatch one inbound event to its handler. -/
def step (e : Event) (s : ServerState) : HResult :=
  match e with
  | .create_room sid room username => on_create_room sid room username s
  | .join_room sid room username => on_join_room sid room username s
  | .disconnect sid => on_disconnect sid s
  | .submit_board sid board => on_submit_board sid board s
  | .start_game sid shuffle => on_start_game sid shuffle s
  | .number_selected sid number => on_number_selected sid number s
  | .send_message sid message => on_send_message sid message s
  | .restart_game sid => on_restart_game sid s

/-- States reachable from server start by any sequence of inbound events. -/
inductive Reachable : ServerState → Prop where
  | init : Reachable initialState
  | step (e : Event) {s : ServerState} :
      Reachable s → Reachable (step e s).state

/-- Modelled from the spec: the winner the spec prescribes for a call — the
first player in roster iteration order whose board contains the number and
completes a line when it is marked. -/
def firstWinner (number : Int) (ps : List (String × Player)) : Option String :=
  (ps.find? (fun e => playerWins number e.2)).map Prod.fst

/-- The winner the code actually records: the last player in roster iteration
order whose board contains the number and completes a line when it is marked. -/
def lastWinner (number : Int) (ps : List (String × Player)) : Option String :=
  (ps.reverse.find? (fun e => playerWins number e.2)).map Prod.fst

/-- Selector for `number_called` events among a handler's emissions. -/
def isNumberCalled : Emit → Bool
  | .number_called _ _ _ _ => true
  | _ => false

/-- Selector for `error` events among a handler's emissions. -/
def isError : Emit → Bool
  | .error _ => true
  | _ => false

/-- Modelled from the spec: a completed row, column, or diagonal of the
5×5 grid flattened row-major — the claim's description of the 12 lines. -/
def specWin (marked : List Bool) : Prop :=
  (∃ r, r < 5 ∧ ∀ c, c < 5 → marked.getD (5 * r + c) false = true) ∨
  (∃ c, c < 5 ∧ ∀ r, r < 5 → marked.getD (5 * r + c) false = true) ∨
  (∀ i, i < 5 → marked.getD (6 * i) false = true) ∨
  (∀ i, i < 5 → marked.getD (4 + 4 * i) false = true)

/-! ### Concrete game states used by counterexamples and witnesses -/

/-- A standard board 1..25 laid out row-major. -/
def board25 : List Int :=
  [1, 2, 3, 4, 5, 6, 7, 8, 9, 10, 11, 12, 13, 14, 15, 16, 17, 18, 19, 20,
   21, 22, 23, 24, 25]

/-- A player holding `board25` with row 0 marked except its last cell, so
that calling 5 completes row 0. -/
def rowPlayer : Player :=
  { board := board25,
    marked := [true, true, true, true, false] ++ List.replicate 20 false,
    bingo := false, submitted := true }

/-- Room in which Alice (first in roster order) and Bob (second) both hold
`rowPlayer`: the call of 5 completes a line for both at once.  It is
Alice's turn and 1..4 have been called. -/
def roomC1 : Room :=
  { players := [("Alice", rowPlayer), ("Bob", rowPlayer)],
    numbers_called := [1, 2, 3, 4], chat := [], game_started := true,
    turn_order := ["Alice", "Bob"], current_turn := 0,
    start_votes := ["Alice", "Bob"], waiting_for_players := false }

def stateC1 : ServerState :=
  { rooms := [("R", roomC1)],
    sid_to_user := [("sA", ⟨"Alice", "R"⟩), ("sB", ⟨"Bob", "R"⟩)] }

/-- Room for the C2 scenario: game in progress with three players, the
player at `turn_order` index 0 about to disconnect while `current_turn = 0`. -/
def roomC2 : Room :=
  { players := [("A", blankPlayer), ("B", blankPlayer), ("C", blankPlayer)],
    numbers_called := [], chat := [], game_started := true,
    turn_order := ["A", "B", "C"], current_turn := 0, start_votes := [],
    waiting_for_players := false }

def stateC2 : ServerState :=
  { rooms := [("R", roomC2)], sid_to_user := [("sA", ⟨"A", "R"⟩)] }

/-- Alice about to win: calling 5 completes her row 0. -/
def pAliceC3 : Player := rowPlayer

/-- Bob holds a disjoint board 26..50 with nothing marked. -/
def pBobC3 : Player :=
  { board := board25.map (fun n => n + 25), marked := List.replicate 25 false,
    bingo := false, submitted := true }

def roomC3 : Room :=
  { players := [("Alice", pAliceC3), ("Bob", pBobC3)],
    numbers_called := [1, 2, 3, 4], chat := [], game_started := true,
    turn_order := ["Alice", "Bob"], current_turn := 0,
    start_votes := ["Alice", "Bob"], waiting_for_players := false }

def stateC3 : ServerState :=
  { rooms := [("R", roomC3)],
    sid_to_user := [("sA", ⟨"Alice", "R"⟩), ("sB", ⟨"Bob", "R"⟩)] }

/-- The state after the winning call: Alice called 5 and won, so the room has
left the in-progress state (`game_started = false`). -/
def afterWin : ServerState := (on_number_selected "sA" 5 stateC3).state

/-- Two-player lobby, both submitted, Alice has voted; Bob's vote starts it. -/
def pSubmitted : Player :=
  { board := board25, marked := List.replicate 25 false, bingo := false,
    submitted := true }

def roomC5 : Room :=
  { players := [("Alice", pSubmitted), ("Bob", pSubmitted)],
    numbers_called := [], chat := [], game_started := false, turn_order := [],
    current_turn := 0, start_votes := ["Alice"], waiting_for_players := true }

def stateC5 : ServerState :=
  { rooms := [("R", roomC5)],
    sid_to_user := [("sA", ⟨"Alice", "R"⟩), ("sB", ⟨"Bob", "R"⟩)] }

/-- An in-progress room with chat history, for the restart witness. -/
def roomC10 : Room :=
  { players := [("Alice", rowPlayer), ("Bob", pBobC3)],
    numbers_called := [1, 2], chat := [("Alice", "hi")], game_started := true,
    turn_order := ["Bob", "Alice"], current_turn := 1,
    start_votes := ["Alice", "Bob"], waiting_for_players := false }

def stateC10 : ServerState :=
  { rooms := [("R", roomC10)], sid_to_user := [("sA", ⟨"Alice", "R"⟩)] }

/-! ### Global invariant: room keys unique, rosters nonempty, calls duplicate-free -/

/-- Invariant on the global room table: room keys are unique, no room has an
empty roster, and no room's `numbers_called` has a duplicate. -/
def RoomsInv (L : List (String × Room)) : Prop :=
  (L.map Prod.fst).Nodup ∧
  ∀ p ∈ L, p.2.players ≠ [] ∧ p.2.numbers_called.Nodup

/-- The registry after one `create_room` by "A" in room "R". -/
def sCreated : ServerState := (step (.create_room "s1" "R" "A") initialState).state

/-- The room record created by that event. -/
def roomA : Room := { freshRoom with players := [("A", blankPlayer)] }

/-- A new 25-entry board Alice submits mid-game. -/
def boardC7 : List Int := board25.map (fun n => n + 100)

/-! ### Association-list lemmas (Python dict semantics) -/

lemma lookupKey_insertPy_self (k : String) (v : α) (l : List (String × α)) :
    lookupKey k (insertPy k v l) = some v := by
  induction l with
  | nil => simp [insertPy, lookupKey]
  | cons e rest ih =>
      by_cases h : e.1 = k
      · simp [insertPy, lookupKey, h]
      · simp [insertPy, lookupKey, h, ih]

lemma lookupKey_insertPy_ne (k k' : String) (v : α) (l : List (String × α))
    (h : k' ≠ k) : lookupKey k' (insertPy k v l) = lookupKey k' l := by
  have h' : ¬(k = k') := fun hh => h hh.symm
  induction l with
  | nil => simp [insertPy, lookupKey, h']
  | cons e rest ih =>
      by_cases he : e.1 = k
      · simp [insertPy, lookupKey, he, h']
      · simp [insertPy, lookupKey, he, ih]

lemma lookupKey_mem {k : String} {v : α} {l : List (String × α)}
    (h : lookupKey k l = some v) : (k, v) ∈ l := by
  induction l with
  | nil => simp [lookupKey] at h
  | cons e rest ih =>
      rw [lookupKey] at h
      by_cases he : e.1 = k
      · rw [if_pos he] at h
        injection h with h2
        have : e = (k, v) := by
          obtain ⟨a, b⟩ := e
          simp_all
        rw [← this]
        exact List.mem_cons_self _ _
      · rw [if_neg he] at h
        exact List.mem_cons_of_mem _ (ih h)

lemma lookupKey_eq_none_of_not_mem {k : String} {l : List (String × α)}
    (h : k ∉ l.map Prod.fst) : lookupKey k l = none := by
  induction l with
  | nil => rfl
  | cons e rest ih =>
      simp only [List.map_cons, List.mem_cons, not_or] at h
      have he : ¬(e.1 = k) := fun hh => h.1 hh.symm
      simp [lookupKey, he, ih h.2]

lemma mem_insertPy {p : String × α} {k : String} {v : α} {l : List (String × α)}
    (h : p ∈ insertPy k v l) : p = (k, v) ∨ p ∈ l := by
  induction l with
  | nil => simpa [insertPy] using h
  | cons e rest ih =>
      by_cases he : e.1 = k
      · simp only [insertPy, he, if_pos, List.mem_cons] at h
        rcases h with h | h
        · exact Or.inl h
        · exact Or.inr (List.mem_cons_of_mem _ h)
      · simp only [insertPy, he, if_neg, not_false_iff, List.mem_cons] at h
        rcases h with h | h
        · subst h
          exact Or.inr (List.mem_cons_self _ _)
        · rcases ih h with h' | h'
          · exact Or.inl h'
          · exact Or.inr (List.mem_cons_of_mem _ h')

lemma mem_eraseKey {p : String × α} {k : String} {l : List (String × α)}
    (h : p ∈ eraseKey k l) : p ∈ l := by
  induction l with
  | nil => simp [eraseKey] at h
  | cons e rest ih =>
      by_cases he : e.1 = k
      · simp only [eraseKey, he, if_pos] at h
        exact List.mem_cons_of_mem _ h
      · simp only [eraseKey, he, if_neg, not_false_iff, List.mem_cons] at h
        rcases h with h | h
        · simp [h]
        · exact List.mem_cons_of_mem _ (ih h)

lemma insertPy_ne_nil (k : String) (v : α) (l : List (String × α)) :
    insertPy k v l ≠ [] := by
  cases l with
  | nil => simp [insertPy]
  | cons e rest =>
      by_cases he : e.1 = k <;> simp [insertPy, he]

lemma map_fst_insertPy (k : String) (v : α) (l : List (String × α)) :
    (insertPy k v l).map Prod.fst =
      if k ∈ l.map Prod.fst then l.map Prod.fst else l.map Prod.fst ++ [k] := by
  induction l with
  | nil => simp [insertPy]
  | cons e rest ih =>
      by_cases he : e.1 = k
      · simp [insertPy, he]
      · have he2 : ¬(k = e.1) := fun hh => he hh.symm
        simp only [insertPy, he, if_neg, not_false_iff, List.map_cons, ih]
        by_cases hk : k ∈ rest.map Prod.fst
        · simp [hk, he2]
        · simp [hk, he2]

lemma map_fst_eraseKey_sublist (k : String) (l : List (String × α)) :
    ((eraseKey k l).map Prod.fst).Sublist (l.map Prod.fst) := by
  induction l with
  | nil => simp [eraseKey]
  | cons e rest ih =>
      by_cases he : e.1 = k
      · simp only [eraseKey, he, if_pos, List.map_cons]
        exact (List.Sublist.refl _).cons _
      · simp only [eraseKey, he, if_neg, not_false_iff, List.map_cons]
        exact ih.cons₂ _

lemma lookupKey_eraseKey_self {k : String} {l : List (String × α)}
    (hnd : (l.map Prod.fst).Nodup) : lookupKey k (eraseKey k l) = none := by
  induction l with
  | nil => rfl
  | cons e rest ih =>
      simp only [List.map_cons, List.nodup_cons] at hnd
      by_cases he : e.1 = k
      · simp only [eraseKey, he, if_pos]
        exact lookupKey_eq_none_of_not_mem (he ▸ hnd.1)
      · simp only [eraseKey, he, if_neg, not_false_iff]
        simp [lookupKey, he, ih hnd.2]

lemma lookupKey_eraseKey_ne (k k' : String) (l : List (String × α)) (h : k' ≠ k) :
    lookupKey k' (eraseKey k l) = lookupKey k' l := by
  induction l with
  | nil => rfl
  | cons e rest ih =>
      by_cases he : e.1 = k
      · have h2 : ¬(k = k') := fun hh => h hh.symm
        simp [eraseKey, lookupKey, he, h2]
      · simp [eraseKey, lookupKey, he, ih]

lemma eraseKey_eq_nil_cases {k : String} {l : List (String × α)}
    (hne : l ≠ []) (h : eraseKey k l = []) :
    ∃ v, l = [(k, v)] := by
  cases l with
  | nil => exact absurd rfl hne
  | cons e rest =>
      by_cases he : e.1 = k
      · simp only [eraseKey, he, if_pos] at h
        subst h
        obtain ⟨a, b⟩ := e
        exact ⟨b, by simp_all⟩
      · simp [eraseKey, he] at h

/-! ### Python list-indexing lemmas -/

lemma pyGet_ne_nil {l : List α} {i : Int} {a : α} (h : pyGet l i = some a) :
    l ≠ [] := by
  intro hl
  subst hl
  simp only [pyGet] at h
  split at h
  · simp at h
  · split at h
    · simp at h
    · simp at h

lemma pyGet_zero (l : List α) : pyGet l 0 = l.get? 0 := by
  simp [pyGet]

/-! ### The winner fold of `on_number_selected` -/

lemma find?_append_some {l₁ l₂ : List α} {p : α → Bool} {x : α}
    (h : l₁.find? p = some x) : (l₁ ++ l₂).find? p = some x := by
  induction l₁ with
  | nil => simp [List.find?] at h
  | cons a t ih =>
      rw [List.cons_append]
      cases hp : p a
      · rw [List.find?_cons_of_neg _ (by simp [hp])] at h
        rw [List.find?_cons_of_neg _ (by simp [hp])]
        exact ih h
      · rw [List.find?_cons_of_pos _ hp] at h
        rw [List.find?_cons_of_pos _ hp]
        exact h

lemma find?_append_none {l₁ l₂ : List α} {p : α → Bool}
    (h : l₁.find? p = none) : (l₁ ++ l₂).find? p = l₂.find? p := by
  induction l₁ with
  | nil => simp
  | cons a t ih =>
      rw [List.cons_append]
      cases hp : p a
      · rw [List.find?_cons_of_neg _ (by simp [hp])] at h
        rw [List.find?_cons_of_neg _ (by simp [hp])]
        exact ih h
      · rw [List.find?_cons_of_pos _ hp] at h
        simp at h

/-- The overwrite-style fold of server.py lines 187-195 keeps the last match:
`computeWinner` is exactly `lastWinner`. -/
lemma computeWinner_eq_lastWinner (number : Int) (ps : List (String × Player)) :
    computeWinner number ps = lastWinner number ps := by
  have key : ∀ (L : List (String × Player)) (w : Option String),
      L.foldl (fun acc e => if playerWins number e.2 then some e.1 else acc) w =
        (match L.reverse.find? (fun e => playerWins number e.2) with
          | some e => some e.1
          | none => w) := by
    intro L
    induction L with
    | nil => intro w; simp
    | cons e rest ih =>
        intro w
        rw [List.foldl_cons, ih, List.reverse_cons]
        cases hf : rest.reverse.find? (fun x => playerWins number x.2) with
        | some x => rw [find?_append_some hf]
        | none =>
            rw [find?_append_none hf]
            cases hp : playerWins number e.2 <;> simp [List.find?, hp]
  rw [computeWinner, lastWinner, key]
  cases hf : ps.reverse.find? (fun e => playerWins number e.2) <;> simp

/-! ### `check_bingo` versus the spec's 12 lines -/

lemma check_bingo_of_line (marked : List Bool) (line : List Nat)
    (hmem : line ∈ bingoLines) (hall : ∀ i ∈ line, marked.getD i false = true) :
    check_bingo marked = true := by
  rw [check_bingo, List.any_eq_true]
  refine ⟨line, hmem, ?_⟩
  rw [List.all_eq_true]
  exact hall

lemma forall_lt_five {P : Nat → Prop} (h : ∀ i, i < 5 → P i) :
    P 0 ∧ P 1 ∧ P 2 ∧ P 3 ∧ P 4 :=
  ⟨h 0 (by norm_num), h 1 (by norm_num), h 2 (by norm_num),
   h 3 (by norm_num), h 4 (by norm_num)⟩

/-- Claim C6 (confirmed): over a 25-element boolean mark array, `check_bingo`
returns true if and only if at least one of the 12 fixed index-sets — the 5
rows, 5 columns, and 2 diagonals of the row-major 5×5 grid — is fully
marked. -/
theorem check_bingo_iff_specWin (marked : List Bool) (h : marked.length = 25) :
    check_bingo marked = true ↔ specWin marked := by
  constructor
  · intro hb
    simp only [check_bingo, bingoLines, List.any_cons, List.any_nil, List.all_cons,
      List.all_nil, Bool.and_true, Bool.or_false, Bool.or_eq_true,
      Bool.and_eq_true] at hb
    rcases hb with ⟨h0, h1, h2, h3, h4⟩ | ⟨h0, h1, h2, h3, h4⟩ | ⟨h0, h1, h2, h3, h4⟩ |
      ⟨h0, h1, h2, h3, h4⟩ | ⟨h0, h1, h2, h3, h4⟩ | ⟨h0, h1, h2, h3, h4⟩ |
      ⟨h0, h1, h2, h3, h4⟩ | ⟨h0, h1, h2, h3, h4⟩ | ⟨h0, h1, h2, h3, h4⟩ |
      ⟨h0, h1, h2, h3, h4⟩ | ⟨h0, h1, h2, h3, h4⟩ | ⟨h0, h1, h2, h3, h4⟩
    · exact Or.inl ⟨0, by norm_num, fun c hc => by interval_cases c <;> simp_all⟩
    · exact Or.inl ⟨1, by norm_num, fun c hc => by interval_cases c <;> simp_all⟩
    · exact Or.inl ⟨2, by norm_num, fun c hc => by interval_cases c <;> simp_all⟩
    · exact Or.inl ⟨3, by norm_num, fun c hc => by interval_cases c <;> simp_all⟩
    · exact Or.inl ⟨4, by norm_num, fun c hc => by interval_cases c <;> simp_all⟩
    · exact Or.inr (Or.inl ⟨0, by norm_num, fun r hr => by interval_cases r <;> simp_all⟩)
    · exact Or.inr (Or.inl ⟨1, by norm_num, fun r hr => by interval_cases r <;> simp_all⟩)
    · exact Or.inr (Or.inl ⟨2, by norm_num, fun r hr => by interval_cases r <;> simp_all⟩)
    · exact Or.inr (Or.inl ⟨3, by norm_num, fun r hr => by interval_cases r <;> simp_all⟩)
    · exact Or.inr (Or.inl ⟨4, by norm_num, fun r hr => by interval_cases r <;> simp_all⟩)
    · exact Or.inr (Or.inr (Or.inl (fun i hi => by interval_cases i <;> simp_all)))
    · exact Or.inr (Or.inr (Or.inr (fun i hi => by interval_cases i <;> simp_all)))
  · intro hs
    rcases hs with ⟨r, hr, hall⟩ | ⟨c, hc, hall⟩ | hall | hall
    · obtain ⟨h0, h1, h2, h3, h4⟩ := forall_lt_five hall
      interval_cases r
      · exact check_bingo_of_line marked [0, 1, 2, 3, 4] (by simp [bingoLines])
          (by intro j hj; fin_cases hj <;> simp_all)
      · exact check_bingo_of_line marked [5, 6, 7, 8, 9] (by simp [bingoLines])
          (by intro j hj; fin_cases hj <;> simp_all)
      · exact check_bingo_of_line marked [10, 11, 12, 13, 14] (by simp [bingoLines])
          (by intro j hj; fin_cases hj <;> simp_all)
      · exact check_bingo_of_line marked [15, 16, 17, 18, 19] (by simp [bingoLines])
          (by intro j hj; fin_cases hj <;> simp_all)
      · exact check_bingo_of_line marked [20, 21, 22, 23, 24] (by simp [bingoLines])
          (by intro j hj; fin_cases hj <;> simp_all)
    · obtain ⟨h0, h1, h2, h3, h4⟩ := forall_lt_five hall
      interval_cases c
      · exact check_bingo_of_line marked [0, 5, 10, 15, 20] (by simp [bingoLines])
          (by intro j hj; fin_cases hj <;> simp_all)
      · exact check_bingo_of_line marked [1, 6, 11, 16, 21] (by simp [bingoLines])
          (by intro j hj; fin_cases hj <;> simp_all)
      · exact check_bingo_of_line marked [2, 7, 12, 17, 22] (by simp [bingoLines])
          (by intro j hj; fin_cases hj <;> simp_all)
      · exact check_bingo_of_line marked [3, 8, 13, 18, 23] (by simp [bingoLines])
          (by intro j hj; fin_cases hj <;> simp_all)
      · exact check_bingo_of_line marked [4, 9, 14, 19, 24] (by simp [bingoLines])
          (by intro j hj; fin_cases hj <;> simp_all)
    · obtain ⟨h0, h1, h2, h3, h4⟩ := forall_lt_five hall
      exact check_bingo_of_line marked [0, 6, 12, 18, 24] (by simp [bingoLines])
        (by intro j hj; fin_cases hj <;> simp_all)
    · obtain ⟨h0, h1, h2, h3, h4⟩ := forall_lt_five hall
      exact check_bingo_of_line marked [4, 8, 12, 16, 20] (by simp [bingoLines])
        (by intro j hj; fin_cases hj <;> simp_all)

/-- Witness for C6: the all-true array satisfies the length hypothesis, and
the equivalence (in particular `check_bingo` is true on it). -/
theorem check_bingo_iff_specWin_witness :
    (List.replicate 25 true).length = 25 ∧
      (check_bingo (List.replicate 25 true) = true ↔ specWin (List.replicate 25 true)) :=
  ⟨by simp, check_bingo_iff_specWin (List.replicate 25 true) (by simp)⟩

/-! ### The successful branch of `on_number_selected` -/

lemma length_ne_zero_of_pyGet {l : List α} {i : Int} {a : α}
    (h : pyGet l i = some a) : ¬(l.length = 0) := by
  intro hl
  exact pyGet_ne_nil h (List.length_eq_zero.mp hl)

lemma on_number_selected_success
    (s : ServerState) (sid : String) (number : Int) (u : UserRef) (r : Room)
    (cp : String)
    (h1 : lookupKey sid s.sid_to_user = some u)
    (h2 : lookupKey u.room s.rooms = some r)
    (h3 : pyGet r.turn_order r.current_turn = some cp)
    (h4 : u.username = cp)
    (h5 : number ∉ r.numbers_called) :
    ∃ r', (on_number_selected sid number s).state = setRoom u.room r' s ∧
      r'.numbers_called = r.numbers_called ++ [number] ∧
      r'.players = r.players.map (fun e => (e.1, updatePlayer number e.2)) ∧
      (on_number_selected sid number s).emits.filter isNumberCalled =
        [.number_called number (computeWinner number r.players) u.username
          (r.numbers_called ++ [number])] := by
  have hne : ¬(u.username ≠ cp) := by simp [h4]
  simp only [on_number_selected, h1, h2, h3]
  rw [if_neg hne, if_neg h5]
  cases hw : computeWinner number r.players with
  | some w =>
      simp only [hw]
      exact ⟨_, rfl, rfl, rfl, by simp [isNumberCalled]⟩
  | none =>
      simp only [hw, advance_turn]
      rw [if_neg (length_ne_zero_of_pyGet h3)]
      rw [start_turn_timer]
      cases hg : pyGet r.turn_order ((r.current_turn + 1) % (r.turn_order.length : Int)) with
      | none => exact ⟨_, rfl, rfl, rfl, by simp [isNumberCalled]⟩
      | some cp' => exact ⟨_, rfl, rfl, rfl, by simp [isNumberCalled]⟩

/-- Claim C4 (confirmed): a `number_selected` from someone other than
`turn_order[current_turn]` fails with the not-your-turn error; one whose
number is already in `numbers_called` fails with the duplicate error; in both
failure cases the whole server state is returned unchanged, and only in the
non-failure case is the number appended to `numbers_called`. -/
theorem on_number_selected_turn_and_duplicate_checks
    (s : ServerState) (sid : String) (number : Int) (u : UserRef) (r : Room)
    (cp : String)
    (h1 : lookupKey sid s.sid_to_user = some u)
    (h2 : lookupKey u.room s.rooms = some r)
    (h3 : pyGet r.turn_order r.current_turn = some cp) :
    (u.username ≠ cp →
      on_number_selected sid number s =
        { state := s, emits := [.error "不是你的回合"], ok := true }) ∧
    (u.username = cp → number ∈ r.numbers_called →
      on_number_selected sid number s =
        { state := s, emits := [.error "該數字已被選過"], ok := true }) ∧
    (u.username = cp → number ∉ r.numbers_called →
      ∃ r', lookupKey u.room (on_number_selected sid number s).state.rooms = some r' ∧
        r'.numbers_called = r.numbers_called ++ [number]) := by
  refine ⟨?_, ?_, ?_⟩
  · intro hne
    simp only [on_number_selected, h1, h2, h3]
    rw [if_pos hne]
  · intro heq hmem
    have hne : ¬(u.username ≠ cp) := by simp [heq]
    simp only [on_number_selected, h1, h2, h3]
    rw [if_neg hne, if_pos hmem]
  · intro heq hmem
    obtain ⟨r', hst, hnum, -, -⟩ :=
      on_number_selected_success s sid number u r cp h1 h2 h3 heq hmem
    refine ⟨r', ?_, hnum⟩
    rw [hst]
    exact lookupKey_insertPy_self _ _ _

/-- Claim C1, amended (the code records the last, not the first, winner):
on a successful call, exactly one `number_called` event is emitted, and its
winner field is the last player in roster iteration order whose board
contains the number and completes a line — `none` if there is no such
player. -/
theorem on_number_selected_winner_is_last
    (s : ServerState) (sid : String) (number : Int) (u : UserRef) (r : Room)
    (cp : String)
    (h1 : lookupKey sid s.sid_to_user = some u)
    (h2 : lookupKey u.room s.rooms = some r)
    (h3 : pyGet r.turn_order r.current_turn = some cp)
    (h4 : u.username = cp)
    (h5 : number ∉ r.numbers_called) :
    (on_number_selected sid number s).emits.filter isNumberCalled =
      [.number_called number (lastWinner number r.players) u.username
        (r.numbers_called ++ [number])] := by
  obtain ⟨r', -, -, -, hfilter⟩ :=
    on_number_selected_success s sid number u r cp h1 h2 h3 h4 h5
  rw [hfilter, computeWinner_eq_lastWinner]

/-- Claim C1 counterexample: in `stateC1` both players complete a line on the
call of 5; the first such player in roster order is Alice, yet the single
`number_called` event records Bob as the winner. -/
theorem winner_not_first_on_simultaneous_bingo :
    firstWinner 5 roomC1.players = some "Alice" ∧
      (on_number_selected "sA" 5 stateC1).emits.filter isNumberCalled =
        [.number_called 5 (some "Bob") "Alice" [1, 2, 3, 4, 5]] ∧
      ("Bob" : String) ≠ "Alice" := by
  decide

/-- Witness for the amended C1 at `stateC1`: the hypotheses of
`on_number_selected_winner_is_last` hold there and yield the recorded
winner Bob, the last player in roster order with a completed line. -/
theorem on_number_selected_winner_is_last_witness :
    (on_number_selected "sA" 5 stateC1).emits.filter isNumberCalled =
      [.number_called 5 (some "Bob") "Alice" [1, 2, 3, 4, 5]] := by
  have h := on_number_selected_winner_is_last stateC1 "sA" 5 ⟨"Alice", "R"⟩ roomC1
    "Alice" (by decide) (by decide) (by decide) rfl (by decide)
  rw [h]
  decide

/-- Witness for C4 at `stateC1`: Bob calling out of turn gets the
not-your-turn error with the state unchanged, and Alice calling the
already-called 4 gets the duplicate error with the state unchanged. -/
theorem on_number_selected_checks_witness :
    on_number_selected "sB" 7 stateC1 =
      { state := stateC1, emits := [.error "不是你的回合"], ok := true } ∧
    on_number_selected "sA" 4 stateC1 =
      { state := stateC1, emits := [.error "該數字已被選過"], ok := true } := by
  have hB := on_number_selected_turn_and_duplicate_checks stateC1 "sB" 7
    ⟨"Bob", "R"⟩ roomC1 "Alice" (by decide) (by decide) (by decide)
  have hA := on_number_selected_turn_and_duplicate_checks stateC1 "sA" 4
    ⟨"Alice", "R"⟩ roomC1 "Alice" (by decide) (by decide) (by decide)
  exact ⟨hB.1 (by decide), hA.2.1 rfl (by decide)⟩

/-- Claim C2 (code bug): when the player at `turn_order` index 0 disconnects
while `current_turn = 0` and the game continues, the code decrements
`current_turn` to `-1` instead of clamping it at 0 — violating the spec's
`0 ≤ currentTurnIndex < len(turnOrder)` invariant. -/
theorem on_disconnect_current_turn_negative :
    lookupKey "R" (on_disconnect "sA" stateC2).state.rooms =
      some { players := [("B", blankPlayer), ("C", blankPlayer)],
             numbers_called := [], chat := [], game_started := true,
             turn_order := ["B", "C"], current_turn := -1, start_votes := [],
             waiting_for_players := false } := by
  decide

/-- Claim C3 (code bug): the winning call on `stateC3` emits `game_over` and
sets `game_started := false`, yet the very next `number_selected` from the
same caller with a fresh number is processed — no error, and
`numbers_called` grows — because `on_number_selected` never checks
`game_started`. -/
theorem post_win_number_selected_accepted :
    Emit.game_over "Alice" ∈ (on_number_selected "sA" 5 stateC3).emits ∧
    (lookupKey "R" afterWin.rooms).map Room.game_started = some false ∧
    (on_number_selected "sA" 6 afterWin).ok = true ∧
    (on_number_selected "sA" 6 afterWin).emits.filter isError = [] ∧
    (lookupKey "R" (on_number_selected "sA" 6 afterWin).state.rooms).map
      Room.numbers_called = some [1, 2, 3, 4, 5, 6] := by
  decide

/-- Claim C5 (confirmed): a start vote transitions the room into the
in-progress state (game started, `current_turn = 0`, `turn_order` a
permutation of the roster's names) iff, after adding the voter, the room has
at least 2 players, at least 2 start votes, and every player has submitted;
otherwise the game fields are unchanged and a waiting status is emitted. -/
theorem on_start_game_transition_iff
    (s : ServerState) (sid : String) (shuffle : List String → List String)
    (u : UserRef) (r : Room)
    (h1 : lookupKey sid s.sid_to_user = some u)
    (h2 : lookupKey u.room s.rooms = some r)
    (hshuf : ∀ l, (shuffle l).Perm l) :
    ((2 ≤ r.players.length ∧ 2 ≤ (addVote u.username r.start_votes).length ∧
        r.players.all (fun e => e.2.submitted) = true) →
      ∃ r', lookupKey u.room (on_start_game sid shuffle s).state.rooms = some r' ∧
        r'.game_started = true ∧ r'.current_turn = 0 ∧
        r'.turn_order.Perm (r.players.map Prod.fst) ∧
        Emit.game_started r'.turn_order ∈ (on_start_game sid shuffle s).emits ∧
        (on_start_game sid shuffle s).ok = true) ∧
    (¬(2 ≤ r.players.length ∧ 2 ≤ (addVote u.username r.start_votes).length ∧
        r.players.all (fun e => e.2.submitted) = true) →
      ∃ r', lookupKey u.room (on_start_game sid shuffle s).state.rooms = some r' ∧
        r'.game_started = r.game_started ∧ r'.turn_order = r.turn_order ∧
        r'.current_turn = r.current_turn ∧ r'.players = r.players ∧
        r'.numbers_called = r.numbers_called ∧
        ∃ msg, Emit.waiting_for_players msg ∈ (on_start_game sid shuffle s).emits) := by
  constructor
  · rintro ⟨hp, hv, hsub⟩
    simp only [on_start_game, h1, h2]
    rw [if_pos ⟨hp, hv⟩, if_pos hsub, start_turn_timer]
    have hperm := hshuf (r.players.map Prod.fst)
    have hlen : (shuffle (r.players.map Prod.fst)).length = r.players.length := by
      rw [hperm.length_eq, List.length_map]
    have hne : shuffle (r.players.map Prod.fst) ≠ [] := by
      intro h0
      rw [h0] at hlen
      simp at hlen
      omega
    obtain ⟨a, t, hat⟩ := List.exists_cons_of_ne_nil hne
    rw [hat]
    simp only [pyGet_zero, List.get?]
    refine ⟨_, lookupKey_insertPy_self _ _ _, rfl, rfl, ?_, ?_, trivial⟩
    · show (a :: t).Perm (r.players.map Prod.fst)
      rw [← hat]
      exact hperm
    · simp
  · intro hneg
    by_cases hc : 2 ≤ r.players.length ∧ 2 ≤ (addVote u.username r.start_votes).length
    · have hsub : ¬(r.players.all (fun e => e.2.submitted) = true) := by
        intro hs
        exact hneg ⟨hc.1, hc.2, hs⟩
      simp only [on_start_game, h1, h2]
      rw [if_pos hc, if_neg hsub]
      exact ⟨_, lookupKey_insertPy_self _ _ _, rfl, rfl, rfl, rfl, rfl,
        "等待其他玩家提交板", by simp⟩
    · simp only [on_start_game, h1, h2]
      rw [if_neg hc]
      exact ⟨_, lookupKey_insertPy_self _ _ _, rfl, rfl, rfl, rfl, rfl,
        "需要至少兩名玩家開始遊戲", by simp⟩

/-- Witness for C5 at `stateC5`: Bob's vote makes 2 players / 2 votes / all
submitted, and the game starts with a permutation of the roster. -/
theorem on_start_game_transition_iff_witness :
    ∃ r', lookupKey "R" (on_start_game "sB" id stateC5).state.rooms = some r' ∧
      r'.game_started = true ∧ r'.current_turn = 0 ∧
      r'.turn_order.Perm (roomC5.players.map Prod.fst) := by
  obtain ⟨r', hlk, hg, hc, hp, -, -⟩ :=
    (on_start_game_transition_iff stateC5 "sB" id ⟨"Bob", "R"⟩ roomC5
      (by decide) (by decide) (fun l => List.Perm.refl l)).1 (by decide)
  exact ⟨r', hlk, hg, hc, hp⟩

/-- Claim C10 (confirmed): restart resets exactly the game-progress fields
(numbers, turn order, turn index, votes, started flag, per-player
board/marked/bingo/submitted), keeps the roster names in insertion order and
the chat log, never deletes the room, and leaves every other room intact. -/
theorem on_restart_game_frame
    (s : ServerState) (sid : String) (u : UserRef) (r : Room)
    (h1 : lookupKey sid s.sid_to_user = some u)
    (h2 : lookupKey u.room s.rooms = some r) :
    ∃ r', on_restart_game sid s =
        { state := { rooms := insertPy u.room r' s.rooms,
                     sid_to_user := s.sid_to_user },
          emits := [.restart_game], ok := true } ∧
      r'.players = r.players.map (fun e => (e.1, blankPlayer)) ∧
      r'.players.map Prod.fst = r.players.map Prod.fst ∧
      r'.chat = r.chat ∧ r'.numbers_called = [] ∧ r'.turn_order = [] ∧
      r'.current_turn = 0 ∧ r'.start_votes = [] ∧ r'.game_started = false ∧
      r'.waiting_for_players = true ∧
      lookupKey u.room (on_restart_game sid s).state.rooms = some r' ∧
      (∀ k, k ≠ u.room → lookupKey k (on_restart_game sid s).state.rooms =
        lookupKey k s.rooms) := by
  simp only [on_restart_game, h1, h2]
  refine ⟨_, rfl, rfl, ?_, rfl, rfl, rfl, rfl, rfl, rfl, rfl,
    lookupKey_insertPy_self _ _ _, ?_⟩
  · rw [List.map_map]
    rfl
  · intro k hk
    exact lookupKey_insertPy_ne _ _ _ _ hk

/-- Witness for C10 at `stateC10`: after restart the room still exists, the
roster names and chat are untouched, and the game flag is cleared. -/
theorem on_restart_game_frame_witness :
    ∃ r', lookupKey "R" (on_restart_game "sA" stateC10).state.rooms = some r' ∧
      r'.players.map Prod.fst = roomC10.players.map Prod.fst ∧
      r'.chat = roomC10.chat ∧ r'.game_started = false := by
  obtain ⟨r', -, -, hfst, hchat, -, -, -, -, hg, -, hlk, -⟩ :=
    on_restart_game_frame stateC10 "sA" ⟨"Alice", "R"⟩ roomC10 (by decide) (by decide)
  exact ⟨r', hlk, hfst, hchat, hg⟩

lemma roomsInv_insertPy {L : List (String × Room)} (h : RoomsInv L)
    (k : String) {r : Room} (hne : r.players ≠ [])
    (hnd : r.numbers_called.Nodup) : RoomsInv (insertPy k r L) := by
  constructor
  · rw [map_fst_insertPy]
    by_cases hk : k ∈ L.map Prod.fst
    · rw [if_pos hk]
      exact h.1
    · rw [if_neg hk]
      rw [List.nodup_append]
      refine ⟨h.1, List.nodup_singleton _, ?_⟩
      intro x hx hx2
      simp only [List.mem_singleton] at hx2
      subst hx2
      exact hk hx
  · intro p hp
    rcases mem_insertPy hp with h' | h'
    · subst h'
      exact ⟨hne, hnd⟩
    · exact h.2 p h'

lemma roomsInv_eraseKey {L : List (String × Room)} (h : RoomsInv L)
    (k : String) : RoomsInv (eraseKey k L) :=
  ⟨h.1.sublist (map_fst_eraseKey_sublist k L),
   fun p hp => h.2 p (mem_eraseKey hp)⟩

lemma roomsInv_lookup {L : List (String × Room)} (h : RoomsInv L) {k : String}
    {r : Room} (hlk : lookupKey k L = some r) :
    r.players ≠ [] ∧ r.numbers_called.Nodup :=
  h.2 (k, r) (lookupKey_mem hlk)

lemma roomsInv_on_create_room (sid room username : String) {s : ServerState}
    (h : RoomsInv s.rooms) :
    RoomsInv (on_create_room sid room username s).state.rooms := by
  refine roomsInv_insertPy h room (insertPy_ne_nil _ _ _) ?_
  cases hlk : lookupKey room s.rooms with
  | none => simp [hlk, freshRoom]
  | some r0 => simpa [hlk] using (roomsInv_lookup h hlk).2

lemma roomsInv_on_join_room (sid room username : String) {s : ServerState}
    (h : RoomsInv s.rooms) :
    RoomsInv (on_join_room sid room username s).state.rooms := by
  simp only [on_join_room]
  split
  · exact h
  · next r0 heq =>
      have heq2 : lookupKey room s.rooms = some r0 := by simpa using heq
      exact roomsInv_insertPy h room (insertPy_ne_nil _ _ _)
        (roomsInv_lookup h heq2).2

lemma roomsInv_on_submit_board (sid : String) (board : List Int)
    {s : ServerState} (h : RoomsInv s.rooms) :
    RoomsInv (on_submit_board sid board s).state.rooms := by
  simp only [on_submit_board]
  split
  · exact h
  · next u hu =>
      split
      · exact h
      · next r heq =>
          split
          · exact h
          · next p hp =>
              have heq2 : lookupKey u.room s.rooms = some r := by simpa using heq
              exact roomsInv_insertPy h u.room (insertPy_ne_nil _ _ _)
                (roomsInv_lookup h heq2).2

lemma roomsInv_on_send_message (sid message : String) {s : ServerState}
    (h : RoomsInv s.rooms) :
    RoomsInv (on_send_message sid message s).state.rooms := by
  simp only [on_send_message]
  split <;> exact h

lemma roomsInv_on_restart_game (sid : String) {s : ServerState}
    (h : RoomsInv s.rooms) :
    RoomsInv (on_restart_game sid s).state.rooms := by
  simp only [on_restart_game]
  split
  · exact h
  · next u hu =>
      split
      · exact h
      · next r heq =>
          have heq2 : lookupKey u.room s.rooms = some r := by simpa using heq
          refine roomsInv_insertPy h u.room ?_ List.nodup_nil
          simp only [ne_eq, List.map_eq_nil_iff]
          exact (roomsInv_lookup h heq2).1

lemma roomsInv_start_turn_timer {s : ServerState} (h : RoomsInv s.rooms)
    (k : String) {r2 : Room} (hne : r2.players ≠ [])
    (hnd : r2.numbers_called.Nodup) (acc : List Emit) :
    RoomsInv (start_turn_timer k r2 s acc).state.rooms := by
  simp only [start_turn_timer]
  split
  · exact roomsInv_insertPy h k hne hnd
  · exact roomsInv_insertPy h k hne hnd

lemma roomsInv_advance_turn {s : ServerState} (h : RoomsInv s.rooms)
    (k : String) {r2 : Room} (hne : r2.players ≠ [])
    (hnd : r2.numbers_called.Nodup) (acc : List Emit) :
    RoomsInv (advance_turn k r2 s acc).state.rooms := by
  simp only [advance_turn]
  split
  · exact roomsInv_insertPy h k hne hnd
  · refine roomsInv_start_turn_timer h k ?_ ?_ _
    · exact hne
    · exact hnd

lemma roomsInv_on_start_game (sid : String)
    (shuffle : List String → List String) {s : ServerState}
    (h : RoomsInv s.rooms) :
    RoomsInv (on_start_game sid shuffle s).state.rooms := by
  simp only [on_start_game]
  split
  · exact h
  · next u hu =>
      split
      · exact h
      · next r heq =>
          have heq2 : lookupKey u.room s.rooms = some r := by simpa using heq
          have hfacts := roomsInv_lookup h heq2
          split
          · split
            · refine roomsInv_start_turn_timer h u.room ?_ ?_ _
              · exact hfacts.1
              · exact hfacts.2
            · refine roomsInv_insertPy h u.room ?_ ?_
              · exact hfacts.1
              · exact hfacts.2
          · refine roomsInv_insertPy h u.room ?_ ?_
            · exact hfacts.1
            · exact hfacts.2

lemma roomsInv_on_number_selected (sid : String) (number : Int)
    {s : ServerState} (h : RoomsInv s.rooms) :
    RoomsInv (on_number_selected sid number s).state.rooms := by
  simp only [on_number_selected]
  split
  · exact h
  · next u hu =>
      split
      · exact h
      · next r heq =>
          have heq2 : lookupKey u.room s.rooms = some r := by simpa using heq
          have hfacts := roomsInv_lookup h heq2
          split
          · exact h
          · next cp hcp =>
              split
              · exact h
              · split
                · exact h
                · next hdup =>
                    have hpl : (r.players.map
                        (fun e => (e.1, updatePlayer number e.2))) ≠ [] := by
                      simp only [ne_eq, List.map_eq_nil_iff]
                      exact hfacts.1
                    have hnum : (r.numbers_called ++ [number]).Nodup := by
                      rw [List.nodup_append]
                      refine ⟨hfacts.2, List.nodup_singleton _, ?_⟩
                      intro x hx hx2
                      simp only [List.mem_singleton] at hx2
                      subst hx2
                      exact hdup hx
                    split
                    · next w hw =>
                        refine roomsInv_insertPy h u.room ?_ ?_
                        · exact hpl
                        · exact hnum
                    · refine roomsInv_advance_turn h u.room ?_ ?_ _
                      · exact hpl
                      · exact hnum

lemma roomsInv_on_disconnect (sid : String) {s : ServerState}
    (h : RoomsInv s.rooms) :
    RoomsInv (on_disconnect sid s).state.rooms := by
  simp only [on_disconnect]
  split
  · exact h
  · next u hu =>
      split
      · exact h
      · next r heq =>
          have heq2 : lookupKey u.room s.rooms = some r := by simpa using heq
          have hfacts := roomsInv_lookup h heq2
          split
          · next hk =>
              split
              · exact roomsInv_eraseKey h _
              · next hlen =>
                  have hne : eraseKey u.username r.players ≠ [] := by
                    intro h0
                    exact hlen (by simp [h0])
                  split <;> (try split) <;> (try split) <;> (try split) <;>
                    (refine roomsInv_insertPy h u.room ?_ ?_) <;>
                    first
                    | exact hne
                    | exact hfacts.2
          · exact h

lemma roomsInv_step (e : Event) {s : ServerState} (h : RoomsInv s.rooms) :
    RoomsInv (step e s).state.rooms := by
  cases e with
  | create_room sid room username => exact roomsInv_on_create_room sid room username h
  | join_room sid room username => exact roomsInv_on_join_room sid room username h
  | disconnect sid => exact roomsInv_on_disconnect sid h
  | submit_board sid board => exact roomsInv_on_submit_board sid board h
  | start_game sid shuffle => exact roomsInv_on_start_game sid shuffle h
  | number_selected sid number => exact roomsInv_on_number_selected sid number h
  | send_message sid message => exact roomsInv_on_send_message sid message h
  | restart_game sid => exact roomsInv_on_restart_game sid h

lemma roomsInv_reachable {s : ServerState} (h : Reachable s) :
    RoomsInv s.rooms := by
  induction h with
  | init => exact ⟨List.nodup_nil, by simp [initialState]⟩
  | step e hr ih => exact roomsInv_step e ih

/-- Claim C8 (confirmed): in every reachable state, a room present in the
registry has a nonempty roster; and a disconnect that removes the last
player of a room deletes the room's registry entry. -/
theorem room_exists_iff_nonempty_roster :
    (∀ s, Reachable s → ∀ room r, lookupKey room s.rooms = some r →
      r.players ≠ []) ∧
    (∀ s sid u r, Reachable s →
      lookupKey sid s.sid_to_user = some u →
      lookupKey u.room s.rooms = some r →
      eraseKey u.username r.players = [] →
      lookupKey u.room (on_disconnect sid s).state.rooms = none) := by
  constructor
  · intro s hs room r hlk
    exact (roomsInv_lookup (roomsInv_reachable hs) hlk).1
  · intro s sid u r hs h1 h2 herase
    have hinv := roomsInv_reachable hs
    have hfacts := roomsInv_lookup hinv h2
    obtain ⟨p, hp⟩ := eraseKey_eq_nil_cases hfacts.1 herase
    have hk : hasKey u.username r.players = true := by
      rw [hp]
      simp [hasKey, lookupKey]
    simp only [on_disconnect, h1, h2]
    rw [if_pos hk]
    simp only [herase, List.length_nil, if_pos rfl]
    exact lookupKey_eraseKey_self hinv.1

/-- Witness for C8: the reachable one-player room has a nonempty roster, and
the single player's disconnect removes the room from the registry. -/
theorem room_exists_iff_nonempty_roster_witness :
    roomA.players ≠ [] ∧
    lookupKey "R" (on_disconnect "s1" sCreated).state.rooms = none := by
  constructor
  · exact room_exists_iff_nonempty_roster.1 sCreated
      (Reachable.step _ Reachable.init) "R" roomA (by decide)
  · exact room_exists_iff_nonempty_roster.2 sCreated "s1" ⟨"A", "R"⟩ roomA
      (Reachable.step _ Reachable.init) (by decide) (by decide) (by decide)

/-- Claim C9 (confirmed): in every reachable state every room's
`numbers_called` is duplicate-free, and a successful call appends exactly
the called number to the existing sequence. -/
theorem numbers_called_nodup_append_only :
    (∀ s, Reachable s → ∀ room r, lookupKey room s.rooms = some r →
      r.numbers_called.Nodup) ∧
    (∀ s sid number u r cp,
      lookupKey sid s.sid_to_user = some u →
      lookupKey u.room s.rooms = some r →
      pyGet r.turn_order r.current_turn = some cp →
      u.username = cp → number ∉ r.numbers_called →
      ∃ r', lookupKey u.room (on_number_selected sid number s).state.rooms = some r' ∧
        r'.numbers_called = r.numbers_called ++ [number]) := by
  constructor
  · intro s hs room r hlk
    exact (roomsInv_lookup (roomsInv_reachable hs) hlk).2
  · intro s sid number u r cp h1 h2 h3 h4 h5
    obtain ⟨r', hst, hnum, -, -⟩ :=
      on_number_selected_success s sid number u r cp h1 h2 h3 h4 h5
    refine ⟨r', ?_, hnum⟩
    rw [hst]
    exact lookupKey_insertPy_self _ _ _

/-- Witness for C9: the reachable one-player room has duplicate-free calls,
and Alice's successful call of 5 in `stateC1` appends 5 to [1,2,3,4]. -/
theorem numbers_called_nodup_append_only_witness :
    roomA.numbers_called.Nodup ∧
    (∃ r', lookupKey "R" (on_number_selected "sA" 5 stateC1).state.rooms = some r' ∧
      r'.numbers_called = roomC1.numbers_called ++ [5]) := by
  constructor
  · exact numbers_called_nodup_append_only.1 sCreated
      (Reachable.step _ Reachable.init) "R" roomA (by decide)
  · exact numbers_called_nodup_append_only.2 stateC1 "sA" 5 ⟨"Alice", "R"⟩ roomC1
      "Alice" (by decide) (by decide) (by decide) rfl (by decide)

/-- Claim C7 (code bug): in `stateC3` the game is started, yet Alice's
`submit_board` succeeds, replaces her board and resets her marks — the
handler never checks `game_started`. -/
theorem on_submit_board_succeeds_mid_game :
    (lookupKey "R" stateC3.rooms).map Room.game_started = some true ∧
    (on_submit_board "sA" boardC7 stateC3).ok = true ∧
    ((lookupKey "R" (on_submit_board "sA" boardC7 stateC3).state.rooms).bind
        (fun r => lookupKey "Alice" r.players)) =
      some { board := boardC7, marked := List.replicate 25 false, bingo := false,
             submitted := true } := by
  decide

end BingoServer
